import Mathlib

/-!
# Verification of the market-flow indicator engine

Shallow embedding of `backend/services/market_flow_indicators.py`.

Modelling conventions:
* Timestamps and intervals are integers (milliseconds), as in the source.
* `Decimal` and Python `float` values are modelled as exact rationals (`ℚ`);
  nullable numeric columns become `Option ℚ`.
* Database query results (`db.query(...).filter(...).order_by(timestamp)`) are
  modelled by filtering and sorting an explicit list of rows.
* Python dicts keyed by bucket timestamp are modelled by the sorted list of
  distinct bucket keys together with per-key aggregation functions; the result
  dict of the dispatcher is modelled as an insertion-ordered association list.
* `logger` calls are ignored (they do not affect data flow); exceptions are
  modelled with `Except`.
-/

namespace MarketFlow

/-- A Python runtime value appearing in the `indicators` list: either a string
or a non-string object (on which `.upper()` is not defined). -/
inductive PyVal where
  | str (s : String)
  | nonstr
deriving DecidableEq

/-- Python exceptions relevant to the model (`.upper()` on a non-string raises
`AttributeError`). -/
inductive PyError where
  | attributeError
deriving DecidableEq

def PyVal.isStr : PyVal → Bool
  | .str _ => true
  | .nonstr => false

/-- `str.upper()` on a string: uppercase every character (kernel-computable
unfolding of `String.toUpper`). -/
def str_upper (s : String) : String :=
  ⟨s.data.map Char.toUpper⟩

/-- `indicator.upper()`: defined on strings, raises on non-strings. -/
def pyUpper : PyVal → Except PyError String
  | .str s => .ok (str_upper s)
  | .nonstr => .error .attributeError

/-- Row of `MarketTradesAggregated` (timestamp, symbol, taker notionals). -/
structure TradeRecord where
  timestamp : Int
  symbol : String
  taker_buy_notional : Option ℚ
  taker_sell_notional : Option ℚ
deriving DecidableEq

/-- Row of `MarketAssetMetrics` (timestamp, symbol, open interest, funding rate). -/
structure MetricRecord where
  timestamp : Int
  symbol : String
  open_interest : Option ℚ
  funding_rate : Option ℚ
deriving DecidableEq

/-- Row of `MarketOrderbookSnapshots` (timestamp, symbol, depths, spread). -/
structure OrderbookRecord where
  timestamp : Int
  symbol : String
  bid_depth_5 : Option ℚ
  ask_depth_5 : Option ℚ
  spread : Option ℚ
deriving DecidableEq

/-- The `TIMEFRAME_MS` dict, as the association list written in the source. -/
def TIMEFRAME_MS_list : List (String × Int) :=
  [("1m", 60 * 1000),
   ("3m", 3 * 60 * 1000),
   ("5m", 5 * 60 * 1000),
   ("15m", 15 * 60 * 1000),
   ("30m", 30 * 60 * 1000),
   ("1h", 60 * 60 * 1000),
   ("2h", 2 * 60 * 60 * 1000),
   ("4h", 4 * 60 * 60 * 1000)]

/-- `TIMEFRAME_MS[period]` lookup (`None` when the key is absent). -/
def TIMEFRAME_MS (period : String) : Option Int :=
  TIMEFRAME_MS_list.lookup period

/-- `floor_timestamp`: `(ts_ms // interval_ms) * interval_ms`; Python `//` is
floor division, i.e. `Int.fdiv`. -/
def floor_timestamp (ts_ms interval_ms : Int) : Int :=
  (Int.fdiv ts_ms interval_ms) * interval_ms

/-- `decimal_to_float`: the conversion is exact in the rational model. -/
def decimal_to_float (val : Option ℚ) : Option ℚ := val

/-- Python `xs[-5:] if len(xs) >= 5 else xs`. -/
def last5 (xs : List ℚ) : List ℚ :=
  if xs.length ≥ 5 then xs.drop (xs.length - 5) else xs

instance {key : α → Int} : IsTotal α (fun a b => key a ≤ key b) :=
  ⟨fun a b => le_total (key a) (key b)⟩

instance {key : α → Int} : IsTrans α (fun a b => key a ≤ key b) :=
  ⟨fun _ _ _ h1 h2 => le_trans h1 h2⟩

/-- The shared fetch stage: filter by symbol equality (case-normalised) and
inclusive timestamp range, then order ascending by timestamp. -/
def queryRecords (key : α → Int) (sym : α → String) (db : List α)
    (symbol : String) (start_time current_time : Int) : List α :=
  List.insertionSort (fun a b => key a ≤ key b)
    (db.filter fun r =>
      sym r == str_upper symbol && decide (start_time ≤ key r)
        && decide (key r ≤ current_time))

def queryTrades (db : List TradeRecord) (symbol : String)
    (start_time current_time : Int) : List TradeRecord :=
  queryRecords (·.timestamp) (·.symbol) db symbol start_time current_time

def queryMetrics (db : List MetricRecord) (symbol : String)
    (start_time current_time : Int) : List MetricRecord :=
  queryRecords (·.timestamp) (·.symbol) db symbol start_time current_time

def queryOrderbook (db : List OrderbookRecord) (symbol : String)
    (start_time current_time : Int) : List OrderbookRecord :=
  queryRecords (·.timestamp) (·.symbol) db symbol start_time current_time

/-- `sorted(buckets.keys())`: the ascending list of distinct bucket keys of the
given record timestamps. -/
def bucketTimes (tss : List Int) (interval_ms : Int) : List Int :=
  List.insertionSort (· ≤ ·)
    ((tss.map fun t => floor_timestamp t interval_ms).dedup)

/-- Additive aggregation of one bucket:
`buckets[k]["buy"] += buy_notional or Decimal("0")` summed over the records
landing in bucket `k` (a null field contributes zero). -/
def bucketSum (f : TradeRecord → Option ℚ) (records : List TradeRecord)
    (interval_ms k : Int) : ℚ :=
  ((records.filter fun r => decide (floor_timestamp r.timestamp interval_ms = k)).map
    fun r => (f r).getD 0).sum

/-- Last-value aggregation: `buckets[bucket_ts] = value` overwrites, so the
bucket holds the last record (in list order) landing in bucket `k`. -/
def lastRecordInBucket (key : α → Int) (records : List α)
    (interval_ms k : Int) : Option α :=
  (records.filter fun r => decide (floor_timestamp (key r) interval_ms = k)).getLast?

/-- Python truthiness of an optional float: `None` and `0.0` are falsy. -/
def pyTruthy : Option ℚ → Bool
  | none => false
  | some q => decide (q ≠ 0)

/-! ## CVD -/

structure CvdResult where
  current : ℚ
  last_5 : List ℚ
  cumulative : ℚ
  period : String
deriving DecidableEq

/-- Per-bucket `float(bucket["buy"] - bucket["sell"])` in chronological order. -/
def cvdDeltas (records : List TradeRecord) (interval_ms : Int) : List ℚ :=
  (bucketTimes (records.map (·.timestamp)) interval_ms).map fun k =>
    bucketSum (·.taker_buy_notional) records interval_ms k
      - bucketSum (·.taker_sell_notional) records interval_ms k

def _get_cvd_data (db : List TradeRecord) (symbol period : String)
    (interval_ms current_time_ms : Int) : Option CvdResult :=
  let start_time := current_time_ms - interval_ms * 10
  let records := queryTrades db symbol start_time current_time_ms
  if records.isEmpty then none
  else
    let period_deltas := cvdDeltas records interval_ms
    if period_deltas.isEmpty then none
    else
      some { current := period_deltas.getLast?.getD 0
             last_5 := last5 period_deltas
             cumulative := period_deltas.sum
             period := period }

/-! ## TAKER -/

structure TakerResult where
  buy : ℚ
  sell : ℚ
  ratio_val : ℚ
  ratio_last_5 : List ℚ
  period : String
deriving DecidableEq

/-- `ratio = buy / sell if sell > 0 else 1.0` for bucket `k`
(dict key "ratio" in the source). -/
def takerRatioAt (records : List TradeRecord) (interval_ms k : Int) : ℚ :=
  let buy := bucketSum (·.taker_buy_notional) records interval_ms k
  let sell := bucketSum (·.taker_sell_notional) records interval_ms k
  if sell > 0 then buy / sell else 1

def takerRatios (records : List TradeRecord) (interval_ms : Int) : List ℚ :=
  (bucketTimes (records.map (·.timestamp)) interval_ms).map fun k =>
    takerRatioAt records interval_ms k

def _get_taker_data (db : List TradeRecord) (symbol period : String)
    (interval_ms current_time_ms : Int) : Option TakerResult :=
  let start_time := current_time_ms - interval_ms * 10
  let records := queryTrades db symbol start_time current_time_ms
  if records.isEmpty then none
  else
    let sorted_times := bucketTimes (records.map (·.timestamp)) interval_ms
    let ratios := takerRatios records interval_ms
    if ratios.isEmpty then none
    else
      let lastKey := sorted_times.getLast?.getD 0
      some { buy := bucketSum (·.taker_buy_notional) records interval_ms lastKey
             sell := bucketSum (·.taker_sell_notional) records interval_ms lastKey
             ratio_val := takerRatioAt records interval_ms lastKey
             ratio_last_5 := last5 ratios
             period := period }

/-! ## OI / OI_DELTA / FUNDING -/

structure SeriesResult where
  current : ℚ
  last_5 : List ℚ
  period : String
deriving DecidableEq

/-- Per-bucket last-value sequence of a metric field, in chronological bucket
order; a bucket whose last record has a null field yields `none`. -/
def metricBucketVals (f : MetricRecord → Option ℚ) (records : List MetricRecord)
    (interval_ms : Int) : List (Option ℚ) :=
  (bucketTimes (records.map (·.timestamp)) interval_ms).map fun k =>
    (lastRecordInBucket (·.timestamp) records interval_ms k).bind f

def _get_oi_data (db : List MetricRecord) (symbol period : String)
    (interval_ms current_time_ms : Int) : Option SeriesResult :=
  let start_time := current_time_ms - interval_ms * 10
  let records := queryMetrics db symbol start_time current_time_ms
  if records.isEmpty then none
  else
    let sorted_times := bucketTimes (records.map (·.timestamp)) interval_ms
    if sorted_times.isEmpty then none
    else
      let oi_values :=
        ((metricBucketVals (·.open_interest) records interval_ms).map
          decimal_to_float).filterMap id
      if oi_values.isEmpty then none
      else
        some { current := oi_values.getLast?.getD 0
               last_5 := last5 oi_values
               period := period }

/-- The loop body of `for i in range(1, len(oi_values))` with `prev = v[i-1]`:
a change is emitted only when `v[i]`, `v[i-1]` are truthy and `v[i-1] != 0`
(the last test is redundant but present in the source). -/
def oiChangesGo : Option ℚ → List (Option ℚ) → List ℚ
  | _, [] => []
  | prev, v :: vs =>
    (if pyTruthy v && pyTruthy prev && decide (prev ≠ some 0) then
      [((v.getD 0 - prev.getD 0) / prev.getD 0) * 100]
     else []) ++ oiChangesGo v vs

/-- `oi_changes` list built from the chronological (possibly null) values. -/
def oi_changes : List (Option ℚ) → List ℚ
  | [] => []
  | v :: vs => oiChangesGo v vs

def _get_oi_delta_data (db : List MetricRecord) (symbol period : String)
    (interval_ms current_time_ms : Int) : Option SeriesResult :=
  let start_time := current_time_ms - interval_ms * 10
  let records := queryMetrics db symbol start_time current_time_ms
  if records.isEmpty then none
  else
    let sorted_times := bucketTimes (records.map (·.timestamp)) interval_ms
    if sorted_times.length < 2 then none
    else
      let oi_values :=
        (metricBucketVals (·.open_interest) records interval_ms).map decimal_to_float
      let changes := oi_changes oi_values
      if changes.isEmpty then none
      else
        some { current := changes.getLast?.getD 0
               last_5 := last5 changes
               period := period }

structure FundingResult where
  current : ℚ
  last_5 : List ℚ
  annualized : ℚ
  period : String
deriving DecidableEq

def _get_funding_data (db : List MetricRecord) (symbol period : String)
    (interval_ms current_time_ms : Int) : Option FundingResult :=
  let start_time := current_time_ms - interval_ms * 10
  let records := queryMetrics db symbol start_time current_time_ms
  if records.isEmpty then none
  else
    let sorted_times := bucketTimes (records.map (·.timestamp)) interval_ms
    if sorted_times.isEmpty then none
    else
      let funding_values :=
        (metricBucketVals (·.funding_rate) records interval_ms).filterMap
          fun fr => fr.map (· * 100)
      if funding_values.isEmpty then none
      else
        let current_funding := funding_values.getLast?.getD 0
        some { current := current_funding
               last_5 := last5 funding_values
               annualized := current_funding * 3 * 365
               period := period }

/-! ## DEPTH / IMBALANCE -/

structure DepthResult where
  bid : ℚ
  ask : ℚ
  ratio_val : ℚ
  ratio_last_5 : List ℚ
  spread : Option ℚ
  period : String
deriving DecidableEq

/-- `bid / ask if ask > 0 else 1.0` with `decimal_to_float(...) or 0` null
coalescing, for the last record of bucket `k` (dict key "ratio" in the source).
The `none` branch is unreachable for keys drawn from `bucketTimes`. -/
def depthRatioAt (records : List OrderbookRecord) (interval_ms k : Int) : ℚ :=
  match lastRecordInBucket (·.timestamp) records interval_ms k with
  | some r =>
    let bid := (decimal_to_float r.bid_depth_5).getD 0
    let ask := (decimal_to_float r.ask_depth_5).getD 0
    if ask > 0 then bid / ask else 1
  | none => 1

def _get_depth_data (db : List OrderbookRecord) (symbol period : String)
    (interval_ms current_time_ms : Int) : Option DepthResult :=
  let start_time := current_time_ms - interval_ms * 10
  let records := queryOrderbook db symbol start_time current_time_ms
  if records.isEmpty then none
  else
    let sorted_times := bucketTimes (records.map (·.timestamp)) interval_ms
    if sorted_times.isEmpty then none
    else
      let ratios := sorted_times.map fun k => depthRatioAt records interval_ms k
      let lastKey := sorted_times.getLast?.getD 0
      let current_bucket := lastRecordInBucket (·.timestamp) records interval_ms lastKey
      let current_bid := ((current_bucket.bind (·.bid_depth_5)).getD 0 : ℚ)
      let current_ask := ((current_bucket.bind (·.ask_depth_5)).getD 0 : ℚ)
      some { bid := current_bid
             ask := current_ask
             ratio_val := if current_ask > 0 then current_bid / current_ask else 1
             ratio_last_5 := last5 ratios
             spread := current_bucket.bind (·.spread)
             period := period }

/-- `(bid - ask) / total if total > 0 else 0.0` for bucket `k`, with the same
null coalescing to `0` as the source. The `none` branch is unreachable for keys
drawn from `bucketTimes`. -/
def imbalanceAt (records : List OrderbookRecord) (interval_ms k : Int) : ℚ :=
  match lastRecordInBucket (·.timestamp) records interval_ms k with
  | some r =>
    let bid := (decimal_to_float r.bid_depth_5).getD 0
    let ask := (decimal_to_float r.ask_depth_5).getD 0
    let total := bid + ask
    if total > 0 then (bid - ask) / total else 0
  | none => 0

def _get_imbalance_data (db : List OrderbookRecord) (symbol period : String)
    (interval_ms current_time_ms : Int) : Option SeriesResult :=
  let start_time := current_time_ms - interval_ms * 10
  let records := queryOrderbook db symbol start_time current_time_ms
  if records.isEmpty then none
  else
    let sorted_times := bucketTimes (records.map (·.timestamp)) interval_ms
    if sorted_times.isEmpty then none
    else
      let imbalances := sorted_times.map fun k => imbalanceAt records interval_ms k
      some { current := imbalances.getLast?.getD 0
             last_5 := last5 imbalances
             period := period }

/-! ## Dispatcher -/

/-- A calculator result, tagged by indicator. -/
inductive FlowResult where
  | cvd (r : CvdResult)
  | taker (r : TakerResult)
  | oi (r : SeriesResult)
  | oiDelta (r : SeriesResult)
  | funding (r : FundingResult)
  | depth (r : DepthResult)
  | imbalance (r : SeriesResult)
deriving DecidableEq

/-- The three read-only time-series tables reachable from the session. -/
structure Store where
  trades : List TradeRecord
  metrics : List MetricRecord
  orderbook : List OrderbookRecord

/-- The `if/elif` chain body: which calculator a recognised uppercased name
invokes, and its result. Names outside the chain yield `none` (this default is
never consulted by the dispatch loop). -/
def realCalcVal (db : Store) (symbol period : String)
    (interval_ms current_time_ms : Int) : String → Option FlowResult
  | "CVD" => (_get_cvd_data db.trades symbol period interval_ms current_time_ms).map .cvd
  | "TAKER" => (_get_taker_data db.trades symbol period interval_ms current_time_ms).map .taker
  | "OI" => (_get_oi_data db.metrics symbol period interval_ms current_time_ms).map .oi
  | "OI_DELTA" => (_get_oi_delta_data db.metrics symbol period interval_ms current_time_ms).map .oiDelta
  | "FUNDING" => (_get_funding_data db.metrics symbol period interval_ms current_time_ms).map .funding
  | "DEPTH" => (_get_depth_data db.orderbook symbol period interval_ms current_time_ms).map .depth
  | "IMBALANCE" => (_get_imbalance_data db.orderbook symbol period interval_ms current_time_ms).map .imbalance
  | _ => none

/-- The concrete calculators never raise: every result is `Except.ok`. -/
def realCalc (db : Store) (symbol period : String)
    (interval_ms current_time_ms : Int) : String → Except PyError (Option FlowResult) :=
  fun name => .ok (realCalcVal db symbol period interval_ms current_time_ms name)

/-- The names recognised by the `if/elif` chain. -/
def KNOWN_INDICATORS : List String :=
  ["CVD", "TAKER", "OI", "OI_DELTA", "FUNDING", "DEPTH", "IMBALANCE"]

/-- Python dict assignment `results[k] = v` on an insertion-ordered
association list: overwrite in place if the key exists, else append. -/
def dictSet (m : List (String × Option α)) (k : String) (v : Option α) :
    List (String × Option α) :=
  if m.any fun p => decide (p.1 = k) then
    m.map fun p => if p.1 = k then (k, v) else p
  else m ++ [(k, v)]

/-- Collapse a caught calculator invocation to the stored dict value:
a raised error is recorded as `None`. -/
def exceptCollapse : Except PyError (Option α) → Option α
  | .ok v => v
  | .error _ => none

/-- The dispatch loop over the requested indicator names
(`for indicator in indicators: ...`).  `indicator.upper()` happens before the
`try`, so its error propagates; a calculator error is caught and stored as
`None` under the uppercased name; unknown names are skipped. -/
def dispatchLoop (calcFn : String → Except PyError (Option α)) :
    List PyVal → List (String × Option α) →
    Except PyError (List (String × Option α))
  | [], results => .ok results
  | ind :: rest, results =>
    match pyUpper ind with
    | .error e => .error e
    | .ok up =>
      if up ∈ KNOWN_INDICATORS then
        match calcFn up with
        | .ok v => dispatchLoop calcFn rest (dictSet results up v)
        | .error _ => dispatchLoop calcFn rest (dictSet results up none)
      else
        dispatchLoop calcFn rest results

/-- `get_flow_indicators_for_prompt`.  The wall-clock default for
`current_time_ms` is not modelled: the caller always supplies it. -/
def get_flow_indicators_for_prompt (db : Store) (symbol period : String)
    (indicators : List PyVal) (current_time_ms : Int) :
    Except PyError (List (String × Option FlowResult)) :=
  match TIMEFRAME_MS period with
  | none => .ok []
  | some interval_ms =>
    dispatchLoop (realCalc db symbol period interval_ms current_time_ms)
      indicators []

/-! ## Spec-side definition for C2 -/

/-- The OI_DELTA change list as the claim words it: a consecutive pair is
skipped only when the earlier value `v[i-1]` is 0 or null.  (Written from the
claim for comparison with `oi_changes`, which is written from the source.) -/
def oiChangesClaimed (vs : List (Option ℚ)) : List ℚ :=
  (vs.zip vs.tail).filterMap fun p =>
    if pyTruthy p.1 then some (((p.2.getD 0 - p.1.getD 0) / p.1.getD 0) * 100)
    else none

/-! ## Concrete inputs used by scenarios, counterexamples and witnesses -/

/-- Records of the CVD scenario of the spec:
`[(t=0,buy=100,sell=40),(t=60000,buy=50,sell=50)]`. -/
def dbC3 : List TradeRecord :=
  [⟨0, "BTC", some 100, some 40⟩, ⟨60000, "BTC", some 50, some 50⟩]

/-- Metric rows where the last sample of the last bucket is null while an
earlier non-null sample exists in the window. -/
def dbC7 : List MetricRecord :=
  [⟨0, "BTC", none, some (2/10000)⟩,
   ⟨60000, "BTC", none, some (1/10000)⟩,
   ⟨60001, "BTC", none, none⟩]

/-- A single funding-rate sample of 0.0001. -/
def dbC7b : List MetricRecord :=
  [⟨0, "BTC", none, some (1/10000)⟩]

/-- A bucket whose first sample has open interest 5 and whose last sample has
null open interest. -/
def dbC8 : List MetricRecord :=
  [⟨0, "BTC", some 5, none⟩, ⟨1, "BTC", none, none⟩]

/-- Trade rows with zero aggregated sell notional in bucket 0. -/
def dbC5t : List TradeRecord :=
  [⟨0, "BTC", some 10, none⟩]

/-- Orderbook row with null (hence zero-coalesced) ask depth. -/
def dbC5o : List OrderbookRecord :=
  [⟨0, "BTC", some 3, none, none⟩]

/-- Orderbook row with null bid and ask depths (both coalesce to zero). -/
def dbC6z : List OrderbookRecord :=
  [⟨0, "BTC", none, none, none⟩]

/-- The empty store. -/
def emptyStore : Store := ⟨[], [], []⟩

/-- A concrete calculator assignment that raises on CVD and succeeds
elsewhere, used to witness the dispatcher contract. -/
def calcW : String → Except PyError (Option Nat) :=
  fun n => if n = "CVD" then .error .attributeError else .ok (some 7)

/-! ## Helper lemmas -/

theorem lookup_mem {p : String} {i : Int} :
    ∀ l : List (String × Int), List.lookup p l = some i → ∃ k, (k, i) ∈ l := by
  intro l
  induction l with
  | nil => intro h; simp [List.lookup] at h
  | cons kv t ih =>
    obtain ⟨k, b⟩ := kv
    intro h
    simp only [List.lookup] at h
    split at h
    · exact ⟨k, by simp [Option.some.inj h]⟩
    · obtain ⟨k', hk'⟩ := ih h
      exact ⟨k', List.mem_cons_of_mem _ hk'⟩

theorem timeframe_interval_pos {p : String} {i : Int}
    (h : TIMEFRAME_MS p = some i) : 0 < i := by
  obtain ⟨k, hk⟩ := lookup_mem _ h
  have hall : ∀ x ∈ TIMEFRAME_MS_list, 0 < x.2 := by decide
  exact hall _ hk

theorem timeframe_none_of_not_mem {p : String}
    (h : p ∉ (["1m", "3m", "5m", "15m", "30m", "1h", "2h", "4h"] : List String)) :
    TIMEFRAME_MS p = none := by
  simp only [List.mem_cons, List.not_mem_nil, or_false, not_or] at h
  obtain ⟨h1, h2, h3, h4, h5, h6, h7, h8⟩ := h
  simp [TIMEFRAME_MS, TIMEFRAME_MS_list, List.lookup,
    beq_eq_false_iff_ne.mpr h1, beq_eq_false_iff_ne.mpr h2,
    beq_eq_false_iff_ne.mpr h3, beq_eq_false_iff_ne.mpr h4,
    beq_eq_false_iff_ne.mpr h5, beq_eq_false_iff_ne.mpr h6,
    beq_eq_false_iff_ne.mpr h7, beq_eq_false_iff_ne.mpr h8]

theorem mem_of_getLast?_eq : ∀ {l : List α} {a : α}, l.getLast? = some a → a ∈ l
  | [], _, h => by simp at h
  | [x], _, h => by simp_all
  | x :: y :: u, a, h => by
    rw [List.getLast?_cons_cons] at h
    exact List.mem_cons_of_mem _ (mem_of_getLast?_eq h)

theorem sum_if_mem {a : Int} {c : ℚ} {g : Int → ℚ} :
    ∀ ks : List Int, ks.Nodup → a ∈ ks →
      (ks.map fun k => if a = k then c + g k else g k).sum = c + (ks.map g).sum := by
  intro ks
  induction ks with
  | nil => intro _ h; simp at h
  | cons k t ih =>
    intro hnd hmem
    by_cases h : a = k
    · subst h
      have hnot : a ∉ t := (List.nodup_cons.mp hnd).1
      have hmap : (t.map fun x => if a = x then c + g x else g x) = t.map g := by
        apply List.map_congr_left
        intro x hx
        have hne : a ≠ x := fun he => hnot (he ▸ hx)
        simp [hne]
      simp [hmap]
      ring
    · have hmem' : a ∈ t := by
        rcases List.mem_cons.mp hmem with h' | h'
        · exact absurd h' h
        · exact h'
      have hnd' : t.Nodup := (List.nodup_cons.mp hnd).2
      simp [h, ih hnd' hmem']
      ring

theorem sum_filter_partition (f : α → ℚ) (key : α → Int) :
    ∀ (l : List α) (ks : List Int), ks.Nodup → (∀ r ∈ l, key r ∈ ks) →
      (ks.map fun k => ((l.filter fun r => decide (key r = k)).map f).sum).sum
        = (l.map f).sum := by
  intro l
  induction l with
  | nil =>
    intro ks _ _
    simp
  | cons r l ih =>
    intro ks hnd hcov
    have hstep : (ks.map fun k =>
          (((r :: l).filter fun x => decide (key x = k)).map f).sum)
        = ks.map fun k =>
            if key r = k then f r + ((l.filter fun x => decide (key x = k)).map f).sum
            else ((l.filter fun x => decide (key x = k)).map f).sum := by
      apply List.map_congr_left
      intro k _
      by_cases h : key r = k
      · simp [List.filter_cons, h]
      · simp [List.filter_cons, h]
    rw [hstep, sum_if_mem ks hnd (hcov r (List.mem_cons_self r l)),
        ih ks hnd (fun x hx => hcov x (List.mem_cons_of_mem _ hx))]
    simp

theorem sum_map_sub (l : List α) (f g : α → ℚ) :
    (l.map fun x => f x - g x).sum = (l.map f).sum - (l.map g).sum := by
  induction l with
  | nil => simp
  | cons x l ih =>
    simp [ih]
    ring

theorem bucketTimes_nodup (tss : List Int) (i : Int) : (bucketTimes tss i).Nodup :=
  ((List.perm_insertionSort _ _).nodup_iff).mpr (List.nodup_dedup _)

theorem mem_bucketTimes {tss : List Int} {i k : Int} :
    k ∈ bucketTimes tss i ↔ ∃ t ∈ tss, floor_timestamp t i = k := by
  unfold bucketTimes
  rw [List.mem_insertionSort, List.mem_dedup, List.mem_map]

/-- The bucketed sums of any trade-record field partition the plain
per-record sum. -/
theorem bucketSum_partition (f : TradeRecord → Option ℚ)
    (records : List TradeRecord) (i : Int) :
    ((bucketTimes (records.map (·.timestamp)) i).map fun k =>
        bucketSum f records i k).sum
      = (records.map fun r => (f r).getD 0).sum := by
  unfold bucketSum
  apply sum_filter_partition (fun r => (f r).getD 0)
    (fun r => floor_timestamp r.timestamp i)
  · exact bucketTimes_nodup _ _
  · intro r hr
    exact mem_bucketTimes.mpr ⟨r.timestamp, List.mem_map_of_mem _ hr, rfl⟩

/-- The sum of the per-bucket CVD deltas collapses to the per-record sum of
`buy − sell` over the queried window. -/
theorem cvdDeltas_sum (records : List TradeRecord) (i : Int) :
    (cvdDeltas records i).sum
      = (records.map fun r =>
          (r.taker_buy_notional.getD 0) - (r.taker_sell_notional.getD 0)).sum := by
  unfold cvdDeltas
  rw [sum_map_sub, bucketSum_partition, bucketSum_partition,
    ← sum_map_sub records (fun r => (r.taker_buy_notional.getD 0))
      (fun r => (r.taker_sell_notional.getD 0))]

/-! ## C1 -/

/-- C1: for every integer timestamp `t` and every supported period with
interval `i`, `floor_timestamp t i` is the largest multiple of `i` that is
`≤ t`: `key ≤ t < key + i`, `key % i = 0`, and any multiple of `i` whose
half-open window of width `i` contains `t` is the key itself (so each record
lands in exactly one bucket). -/
theorem bucket_key_floor (p : String) (i t : Int) (h : TIMEFRAME_MS p = some i) :
    floor_timestamp t i ≤ t ∧ t < floor_timestamp t i + i ∧
    floor_timestamp t i % i = 0 ∧
    ∀ m : Int, m % i = 0 → m ≤ t → t < m + i → m = floor_timestamp t i := by
  have hi : 0 < i := timeframe_interval_pos h
  have hfd : Int.fdiv t i = t / i := Int.fdiv_eq_ediv t (le_of_lt hi)
  have hdm := Int.ediv_add_emod t i
  have hnn := Int.emod_nonneg t (ne_of_gt hi)
  have hlt := Int.emod_lt_of_pos t hi
  have hkey : floor_timestamp t i = t - t % i := by
    unfold floor_timestamp
    rw [hfd, mul_comm]
    linarith [hdm]
  refine ⟨by rw [hkey]; linarith, by rw [hkey]; linarith, ?_, ?_⟩
  · unfold floor_timestamp
    rw [hfd]
    exact Int.mul_emod_left _ _
  · intro m hm hle hlt2
    obtain ⟨c, hc⟩ := Int.dvd_of_emod_eq_zero hm
    have h1 : c ≤ t / i := by
      rw [Int.le_ediv_iff_mul_le hi, mul_comm]
      linarith [hc]
    have h2 : t / i < c + 1 := by
      rw [Int.ediv_lt_iff_lt_mul hi]
      nlinarith [hc]
    have hceq : c = t / i := by omega
    unfold floor_timestamp
    rw [hfd, hc, hceq, mul_comm]

/-- Witness for C1 at `t = 123456`, period `"1m"`. -/
theorem bucket_key_floor_witness :
    TIMEFRAME_MS "1m" = some 60000 ∧
    floor_timestamp 123456 60000 ≤ 123456 ∧
    (123456 : Int) < floor_timestamp 123456 60000 + 60000 ∧
    floor_timestamp 123456 60000 % 60000 = 0 ∧
    (120000 : Int) = floor_timestamp 123456 60000 :=
  ⟨rfl, (bucket_key_floor "1m" 60000 123456 rfl).1,
   (bucket_key_floor "1m" 60000 123456 rfl).2.1,
   (bucket_key_floor "1m" 60000 123456 rfl).2.2.1,
   (bucket_key_floor "1m" 60000 123456 rfl).2.2.2 120000 (by decide) (by decide)
     (by decide)⟩

/-! ## C3 -/

/-- C3: whenever CVD returns a result, `cumulative` is the sum of all
per-bucket `buy − sell` deltas over the 10-interval lookback window (equal to
the per-record sum over the window) and `current` is the last bucket's delta;
and the spec scenario `[(0,100,40),(60000,50,50)]`, period `1m`,
`current_time_ms = 60000` yields `current = 0`, `last_5 = [60, 0]`,
`cumulative = 60`. -/
theorem cvd_cumulative_and_current :
    (∀ (db : List TradeRecord) (symbol period : String)
       (interval_ms current_time_ms : Int) (res : CvdResult),
      _get_cvd_data db symbol period interval_ms current_time_ms = some res →
      res.cumulative =
        ((queryTrades db symbol (current_time_ms - interval_ms * 10) current_time_ms).map
          fun r => (r.taker_buy_notional.getD 0) - (r.taker_sell_notional.getD 0)).sum ∧
      ∃ kl, (bucketTimes
              ((queryTrades db symbol (current_time_ms - interval_ms * 10)
                current_time_ms).map (·.timestamp)) interval_ms).getLast? = some kl ∧
        res.current =
          bucketSum (·.taker_buy_notional)
              (queryTrades db symbol (current_time_ms - interval_ms * 10) current_time_ms)
              interval_ms kl
            - bucketSum (·.taker_sell_notional)
              (queryTrades db symbol (current_time_ms - interval_ms * 10) current_time_ms)
              interval_ms kl) ∧
    _get_cvd_data dbC3 "BTC" "1m" 60000 60000 =
      some { current := 0, last_5 := [60, 0], cumulative := 60, period := "1m" } := by
  constructor
  · intro db symbol period i now res h
    simp only [_get_cvd_data] at h
    set rs := queryTrades db symbol (now - i * 10) now with hrs
    by_cases h1 : rs.isEmpty
    · simp [h1] at h
    · simp only [h1, if_false, Bool.false_eq_true] at h
      by_cases h2 : (cvdDeltas rs i).isEmpty
      · simp [h2] at h
      · simp only [h2, if_false, Bool.false_eq_true] at h
        obtain rfl := (Option.some.inj h).symm
        refine ⟨cvdDeltas_sum rs i, ?_⟩
        have hkeys : bucketTimes (rs.map (·.timestamp)) i ≠ [] := by
          intro he
          apply h2
          unfold cvdDeltas
          rw [he]
          rfl
        obtain ⟨kl, hkl⟩ : ∃ kl, (bucketTimes (rs.map (·.timestamp)) i).getLast? = some kl := by
          cases hgl : (bucketTimes (rs.map (·.timestamp)) i).getLast? with
          | none => exact absurd (List.getLast?_eq_none_iff.mp hgl) hkeys
          | some kl => exact ⟨kl, rfl⟩
        refine ⟨kl, hkl, ?_⟩
        show (cvdDeltas rs i).getLast?.getD 0 = _
        unfold cvdDeltas
        rw [List.getLast?_map, hkl]
        rfl
  · norm_num [_get_cvd_data, queryTrades, queryRecords, str_upper, cvdDeltas, bucketTimes,
      bucketSum, floor_timestamp, last5, dbC3, Int.fdiv]

/-- Witness for C3: the general clause applied to the concrete scenario. -/
theorem cvd_cumulative_and_current_witness :
    _get_cvd_data dbC3 "BTC" "1m" 60000 60000 =
      some { current := 0, last_5 := [60, 0], cumulative := 60, period := "1m" } ∧
    ({ current := 0, last_5 := [60, 0], cumulative := 60, period := "1m" } : CvdResult).cumulative =
      ((queryTrades dbC3 "BTC" (60000 - 60000 * 10) 60000).map
        fun r => (r.taker_buy_notional.getD 0) - (r.taker_sell_notional.getD 0)).sum :=
  ⟨cvd_cumulative_and_current.2,
   (cvd_cumulative_and_current.1 dbC3 "BTC" "1m" 60000 60000 _
     cvd_cumulative_and_current.2).1⟩

/-! ## C5 -/

/-- C5: the TAKER bucket ratio is exactly 1 when the bucket's aggregated sell
notional is 0, and the DEPTH bucket ratio is exactly 1 when the bucket's ask
depth (null-coalesced to 0) is 0; both computations are total, so no
division-by-zero error can arise. -/
theorem ratio_zero_denominator :
    (∀ (records : List TradeRecord) (interval_ms k : Int),
      bucketSum (·.taker_sell_notional) records interval_ms k = 0 →
      takerRatioAt records interval_ms k = 1) ∧
    (∀ (records : List OrderbookRecord) (interval_ms k : Int) (r : OrderbookRecord),
      lastRecordInBucket (·.timestamp) records interval_ms k = some r →
      r.ask_depth_5.getD 0 = 0 →
      depthRatioAt records interval_ms k = 1) := by
  constructor
  · intro records i k h
    unfold takerRatioAt
    simp [h]
  · intro records i k r hr ha
    unfold depthRatioAt
    rw [hr]
    simp [decimal_to_float, ha]

/-- Witness for C5 on concrete one-row tables. -/
theorem ratio_zero_denominator_witness :
    takerRatioAt dbC5t 60000 0 = 1 ∧ depthRatioAt dbC5o 60000 0 = 1 :=
  ⟨ratio_zero_denominator.1 dbC5t 60000 0
     (by norm_num [bucketSum, dbC5t, floor_timestamp, Int.fdiv]),
   ratio_zero_denominator.2 dbC5o 60000 0 ⟨0, "BTC", some 3, none, none⟩
     (by norm_num [lastRecordInBucket, dbC5o, floor_timestamp, Int.fdiv])
     (by norm_num)⟩

/-! ## C6 -/

/-- C6: every per-bucket imbalance lies in `[-1, 1]` whenever all coalesced
bid/ask depths are non-negative, and it is exactly 0 when the bucket's bid and
ask depths are both 0. -/
theorem imbalance_bounds :
    (∀ (records : List OrderbookRecord) (interval_ms k : Int),
      (∀ r ∈ records, 0 ≤ r.bid_depth_5.getD 0 ∧ 0 ≤ r.ask_depth_5.getD 0) →
      -1 ≤ imbalanceAt records interval_ms k ∧ imbalanceAt records interval_ms k ≤ 1) ∧
    (∀ (records : List OrderbookRecord) (interval_ms k : Int) (r : OrderbookRecord),
      lastRecordInBucket (·.timestamp) records interval_ms k = some r →
      r.bid_depth_5.getD 0 = 0 → r.ask_depth_5.getD 0 = 0 →
      imbalanceAt records interval_ms k = 0) := by
  constructor
  · intro records i k hnn
    unfold imbalanceAt
    cases hr : lastRecordInBucket (·.timestamp) records i k with
    | none => norm_num
    | some r =>
      have hmem : r ∈ records :=
        List.mem_of_mem_filter (mem_of_getLast?_eq hr)
      obtain ⟨hb, ha⟩ := hnn r hmem
      simp only [decimal_to_float]
      by_cases ht : r.bid_depth_5.getD 0 + r.ask_depth_5.getD 0 > 0
      · rw [if_pos ht]
        constructor
        · rw [le_div_iff₀ ht]
          linarith
        · rw [div_le_one ht]
          linarith
      · rw [if_neg ht]
        norm_num
  · intro records i k r hr hb ha
    unfold imbalanceAt
    rw [hr]
    simp [decimal_to_float, hb, ha]

/-- Witness for C6 on concrete one-row tables. -/
theorem imbalance_bounds_witness :
    (-1 ≤ imbalanceAt dbC5o 60000 0 ∧ imbalanceAt dbC5o 60000 0 ≤ 1) ∧
    imbalanceAt dbC6z 60000 0 = 0 :=
  ⟨imbalance_bounds.1 dbC5o 60000 0 (by norm_num [dbC5o]),
   imbalance_bounds.2 dbC6z 60000 0 ⟨0, "BTC", none, none, none⟩
     (by norm_num [lastRecordInBucket, dbC6z, floor_timestamp, Int.fdiv])
     (by norm_num) (by norm_num)⟩

/-! ## C2 -/

theorem oiCond_iff (prev v : Option ℚ) :
    (pyTruthy v && pyTruthy prev && decide (prev ≠ some 0))
      = (pyTruthy prev && pyTruthy v) := by
  cases prev with
  | none => simp [pyTruthy]
  | some p =>
    cases v with
    | none => simp [pyTruthy]
    | some q =>
      by_cases hp : p = 0
      · simp [pyTruthy, hp]
      · by_cases hq : q = 0
        · simp [pyTruthy, hp, hq]
        · simp [pyTruthy, hp, hq]

theorem oiChangesGo_zip :
    ∀ (vs : List (Option ℚ)) (prev : Option ℚ),
      oiChangesGo prev vs = ((prev :: vs).zip vs).filterMap fun p =>
        if pyTruthy p.1 = true ∧ pyTruthy p.2 = true then
          some (((p.2.getD 0 - p.1.getD 0) / p.1.getD 0) * 100)
        else none := by
  intro vs
  induction vs with
  | nil => intro prev; simp [oiChangesGo]
  | cons w ws ih =>
    intro prev
    simp only [oiChangesGo, List.zip_cons_cons, List.filterMap_cons]
    rw [ih w, oiCond_iff]
    by_cases hb : (pyTruthy prev && pyTruthy w) = true
    · have hc : pyTruthy prev = true ∧ pyTruthy w = true := by simpa using hb
      simp [hb, hc]
    · have hc : ¬(pyTruthy prev = true ∧ pyTruthy w = true) := fun hc =>
        hb (by simp [hc.1, hc.2])
      simp [hb, hc]

theorem oi_changes_zip (vs : List (Option ℚ)) :
    oi_changes vs = (vs.zip vs.tail).filterMap fun p =>
      if pyTruthy p.1 = true ∧ pyTruthy p.2 = true then
        some (((p.2.getD 0 - p.1.getD 0) / p.1.getD 0) * 100)
      else none := by
  cases vs with
  | nil => simp [oi_changes]
  | cons v vs => exact oiChangesGo_zip vs v

/-- C2 counterexample: for the chronological bucket values `[5, 0]`, the claim
says the pair is kept (the earlier value 5 is neither 0 nor null) and the
change list is `[-100]`; the code also skips pairs whose *later* value is 0 or
null, so it produces `[]`. -/
theorem oi_delta_skip_counterexample :
    oi_changes [some 5, some 0] = [] ∧
    oiChangesClaimed [some 5, some 0] = [-100] := by
  constructor
  · decide
  · norm_num [oiChangesClaimed, pyTruthy, List.filterMap_cons, Option.getD]

/-- C2 (amended): the change list contains `(v[i]−v[i-1])/v[i-1]×100` exactly
for the consecutive pairs in which *both* `v[i-1]` and `v[i]` are non-null and
non-zero; and with fewer than 2 buckets the OI_DELTA result is null, not an
exception. -/
theorem oi_delta_pairs_and_min_buckets :
    (∀ vs : List (Option ℚ), oi_changes vs = (vs.zip vs.tail).filterMap fun p =>
      if pyTruthy p.1 = true ∧ pyTruthy p.2 = true then
        some (((p.2.getD 0 - p.1.getD 0) / p.1.getD 0) * 100)
      else none) ∧
    (∀ (db : List MetricRecord) (symbol period : String)
       (interval_ms current_time_ms : Int),
      (bucketTimes
          ((queryMetrics db symbol (current_time_ms - interval_ms * 10)
            current_time_ms).map (·.timestamp)) interval_ms).length < 2 →
      _get_oi_delta_data db symbol period interval_ms current_time_ms = none) := by
  constructor
  · exact oi_changes_zip
  · intro db symbol period i now hlen
    simp only [_get_oi_delta_data]
    by_cases h1 : (queryMetrics db symbol (now - i * 10) now).isEmpty
    · simp [h1]
    · simp [h1, hlen]

/-- Witness for C2: the pair characterisation at `[5, 6]` and the
single-bucket null result on an empty table. -/
theorem oi_delta_pairs_and_min_buckets_witness :
    oi_changes [some 5, some 6] = [20] ∧
    _get_oi_delta_data [] "BTC" "1m" 60000 0 = none :=
  ⟨by
    rw [oi_delta_pairs_and_min_buckets.1 [some 5, some 6]]
    norm_num [pyTruthy, List.filterMap_cons, Option.getD],
   oi_delta_pairs_and_min_buckets.2 [] "BTC" "1m" 60000 0 (by decide)⟩

/-! ## C7 -/

theorem filterMap_map_mul (l : List (Option ℚ)) :
    (l.filterMap fun fr => fr.map (· * 100)) = (l.filterMap id).map (· * 100) := by
  induction l with
  | nil => rfl
  | cons o t ih => cases o <;> simp [ih]

/-- C7 counterexample: in `dbC7` the window's chronologically last non-null
funding-rate sample is `0.0001`, but the code stores per bucket only the last
sample (null here, so the last bucket is dropped) and returns
`current = 0.02` from the earlier bucket — not `0.0001 × 100 = 0.01`. -/
theorem funding_last_sample_counterexample :
    ((queryMetrics dbC7 "BTC" (60001 - 60000 * 10) 60001).filterMap
        (·.funding_rate)).getLast? = some (1/10000) ∧
    _get_funding_data dbC7 "BTC" "1m" 60000 60001 =
      some { current := 1/50, last_5 := [1/50], annualized := (1/50) * 3 * 365,
             period := "1m" } ∧
    (1/50 : ℚ) ≠ (1/10000) * 100 := by
  refine ⟨?_, ?_, by norm_num⟩
  · norm_num [queryMetrics, queryRecords, str_upper, dbC7, List.filterMap_cons]
  · norm_num [_get_funding_data, queryMetrics, queryRecords, str_upper, metricBucketVals,
      bucketTimes, lastRecordInBucket, floor_timestamp, last5, dbC7, Int.fdiv,
      List.filterMap_cons, Option.map, Option.getD]

/-- C7 (amended): whenever FUNDING returns a result, `current` is 100 times
the last non-null element of the per-bucket last-value sequence (each bucket
holding its chronologically last sample, null if that sample is null), and
`annualized = current × 3 × 365`; the spec scenario with a single sample
0.0001 yields `current = 0.01` and `annualized = 10.95`. -/
theorem funding_current_annualized :
    (∀ (db : List MetricRecord) (symbol period : String)
       (interval_ms current_time_ms : Int) (res : FundingResult),
      _get_funding_data db symbol period interval_ms current_time_ms = some res →
      res.annualized = res.current * 3 * 365 ∧
      ∃ x, ((metricBucketVals (·.funding_rate)
              (queryMetrics db symbol (current_time_ms - interval_ms * 10)
                current_time_ms) interval_ms).filterMap id).getLast? = some x ∧
        res.current = x * 100) ∧
    _get_funding_data dbC7b "BTC" "1m" 60000 0 =
      some { current := 1/100, last_5 := [1/100], annualized := 1095/100,
             period := "1m" } := by
  constructor
  · intro db symbol period i now res h
    simp only [_get_funding_data] at h
    set rs := queryMetrics db symbol (now - i * 10) now with hrs
    by_cases h1 : rs.isEmpty
    · simp [h1] at h
    · simp only [h1, if_false, Bool.false_eq_true] at h
      by_cases h2 : (bucketTimes (rs.map (·.timestamp)) i).isEmpty
      · simp [h2] at h
      · simp only [h2, if_false, Bool.false_eq_true] at h
        by_cases h3 : ((metricBucketVals (·.funding_rate) rs i).filterMap
            fun fr => fr.map (· * 100)).isEmpty
        · simp [h3] at h
        · simp only [h3, if_false, Bool.false_eq_true] at h
          obtain rfl := (Option.some.inj h).symm
          refine ⟨rfl, ?_⟩
          have hr : ((metricBucketVals (·.funding_rate) rs i).filterMap
              fun fr => fr.map (· * 100))
              = ((metricBucketVals (·.funding_rate) rs i).filterMap id).map (· * 100) :=
            filterMap_map_mul _
          obtain ⟨x, hx⟩ : ∃ x,
              ((metricBucketVals (·.funding_rate) rs i).filterMap id).getLast? = some x := by
            cases hgl : ((metricBucketVals (·.funding_rate) rs i).filterMap id).getLast? with
            | some x => exact ⟨x, rfl⟩
            | none =>
              exfalso
              apply h3
              rw [hr, List.getLast?_eq_none_iff.mp hgl]
              rfl
          refine ⟨x, hx, ?_⟩
          show (((metricBucketVals (·.funding_rate) rs i).filterMap
            fun fr => fr.map (· * 100)).getLast?.getD 0) = x * 100
          rw [hr, List.getLast?_map, hx]
          rfl
  · norm_num [_get_funding_data, queryMetrics, queryRecords, str_upper, metricBucketVals,
      bucketTimes, lastRecordInBucket, floor_timestamp, last5, dbC7b, Int.fdiv,
      List.filterMap_cons, Option.map, Option.getD]

/-- Witness for C7: the general clause applied to the one-sample scenario. -/
theorem funding_current_annualized_witness :
    _get_funding_data dbC7b "BTC" "1m" 60000 0 =
      some { current := 1/100, last_5 := [1/100], annualized := 1095/100,
             period := "1m" } ∧
    ({ current := 1/100, last_5 := [1/100], annualized := 1095/100,
       period := "1m" } : FundingResult).annualized = (1/100 : ℚ) * 3 * 365 :=
  ⟨funding_current_annualized.2,
   (funding_current_annualized.1 dbC7b "BTC" "1m" 60000 0 _
     funding_current_annualized.2).1⟩

/-! ## C8 -/

theorem queryRecords_sorted (key : α → Int) (sym : α → String) (db : List α)
    (symbol : String) (start_time current_time : Int) :
    (queryRecords key sym db symbol start_time current_time).Pairwise
      (fun a b => key a ≤ key b) := by
  unfold queryRecords
  exact List.sorted_insertionSort (fun a b => key a ≤ key b) _

theorem getLast?_le_of_pairwise {key : α → Int} :
    ∀ {l : List α}, l.Pairwise (fun a b => key a ≤ key b) →
      ∀ {y}, l.getLast? = some y → ∀ x ∈ l, key x ≤ key y := by
  intro l
  induction l with
  | nil => intro _ y h; simp at h
  | cons a t ih =>
    intro hp y hy x hx
    cases t with
    | nil =>
      simp only [List.getLast?_singleton, Option.some.injEq] at hy
      rcases List.mem_cons.mp hx with rfl | hx'
      · exact hy ▸ le_refl _
      · simp at hx'
    | cons b u =>
      rw [List.getLast?_cons_cons] at hy
      rcases List.mem_cons.mp hx with rfl | hx'
      · have hymem : y ∈ b :: u := mem_of_getLast?_eq hy
        exact (List.pairwise_cons.mp hp).1 y hymem
      · exact ih (List.pairwise_cons.mp hp).2 hy x hx'

/-- C8 counterexample: bucket 0 of `dbC8` contains a non-null open-interest
sample (5 at t=0), but the bucket's last sample (t=1) is null, so the bucket
contributes nothing and the whole OI result is null — contradicting the
claim that a bucket with at least one non-null sample still contributes. -/
theorem oi_nonnull_sample_counterexample :
    _get_oi_data dbC8 "BTC" "1m" 60000 60000 = none ∧
    (dbC8.filter fun r => decide (floor_timestamp r.timestamp 60000 = 0)).any
      (fun r => r.open_interest.isSome) = true := by
  exact ⟨by decide, by decide⟩

/-- C8 (amended): for every last-value metric field `f` and every bucket key
`k` of the queried window, the bucket stores `f r` where `r` is the last
queried record of the bucket; `r` has maximal timestamp among the bucket's
records, its stored value is an element of the derived per-bucket sequence,
and the bucket is skipped exactly when `f r` is null — even if an earlier
record in the bucket has a non-null value. -/
theorem last_value_bucket_rule (f : MetricRecord → Option ℚ)
    (db : List MetricRecord) (symbol : String)
    (interval_ms current_time_ms k : Int)
    (hk : k ∈ bucketTimes
        ((queryMetrics db symbol (current_time_ms - interval_ms * 10)
          current_time_ms).map (·.timestamp)) interval_ms) :
    ∃ r, lastRecordInBucket (·.timestamp)
          (queryMetrics db symbol (current_time_ms - interval_ms * 10) current_time_ms)
          interval_ms k = some r ∧
      floor_timestamp r.timestamp interval_ms = k ∧
      (∀ r' ∈ queryMetrics db symbol (current_time_ms - interval_ms * 10) current_time_ms,
        floor_timestamp r'.timestamp interval_ms = k → r'.timestamp ≤ r.timestamp) ∧
      f r ∈ metricBucketVals f
        (queryMetrics db symbol (current_time_ms - interval_ms * 10) current_time_ms)
        interval_ms := by
  set rs := queryMetrics db symbol (current_time_ms - interval_ms * 10) current_time_ms
    with hrs
  obtain ⟨t, ht, htk⟩ := mem_bucketTimes.mp hk
  obtain ⟨r0, hr0, rfl⟩ := List.mem_map.mp ht
  have hfil : r0 ∈ rs.filter fun r =>
      decide (floor_timestamp r.timestamp interval_ms = k) := by
    simp [List.mem_filter, hr0, htk]
  have hne : (rs.filter fun r =>
      decide (floor_timestamp r.timestamp interval_ms = k)) ≠ [] := by
    intro he
    rw [he] at hfil
    simp at hfil
  obtain ⟨r, hr⟩ : ∃ r, lastRecordInBucket (·.timestamp) rs interval_ms k = some r := by
    unfold lastRecordInBucket
    cases hgl : (rs.filter fun r =>
        decide (floor_timestamp r.timestamp interval_ms = k)).getLast? with
    | none => exact absurd (List.getLast?_eq_none_iff.mp hgl) hne
    | some r => exact ⟨r, rfl⟩
  have hrfil : r ∈ rs.filter fun x =>
      decide (floor_timestamp x.timestamp interval_ms = k) :=
    mem_of_getLast?_eq hr
  refine ⟨r, hr, ?_, ?_, ?_⟩
  · have := (List.mem_filter.mp hrfil).2
    simpa using this
  · intro r' hr' hk'
    have hp : rs.Pairwise (fun a b => a.timestamp ≤ b.timestamp) := by
      rw [hrs]
      unfold queryMetrics
      exact queryRecords_sorted _ _ _ _ _ _
    have hpf := hp.filter
      (fun x => decide (floor_timestamp x.timestamp interval_ms = k))
    exact @getLast?_le_of_pairwise MetricRecord (·.timestamp) _ hpf _ hr r'
      (List.mem_filter.mpr ⟨hr', by simpa using hk'⟩)
  · have hmem := List.mem_map_of_mem
      (fun k => (lastRecordInBucket (·.timestamp) rs interval_ms k).bind f) hk
    simpa [metricBucketVals, hr] using hmem

/-- Witness for C8 at bucket 0 of `dbC8`: the stored record is the null-valued
sample at t=1, which has the bucket's maximal timestamp. -/
theorem last_value_bucket_rule_witness :
    (0 : Int) ∈ bucketTimes
      ((queryMetrics dbC8 "BTC" (60000 - 60000 * 10) 60000).map (·.timestamp)) 60000 ∧
    ∃ r, lastRecordInBucket (·.timestamp)
          (queryMetrics dbC8 "BTC" (60000 - 60000 * 10) 60000) 60000 0 = some r ∧
      floor_timestamp r.timestamp 60000 = 0 ∧
      (∀ r' ∈ queryMetrics dbC8 "BTC" (60000 - 60000 * 10) 60000,
        floor_timestamp r'.timestamp 60000 = 0 → r'.timestamp ≤ r.timestamp) ∧
      r.open_interest ∈ metricBucketVals (·.open_interest)
        (queryMetrics dbC8 "BTC" (60000 - 60000 * 10) 60000) 60000 :=
  ⟨by decide,
   last_value_bucket_rule (·.open_interest) dbC8 "BTC" 60000 60000 0 (by decide)⟩

/-! ## Dict lemmas for the dispatcher -/

theorem lookup_map_replace (k : String) (v : Option α) :
    ∀ m : List (String × Option α),
      List.lookup k (m.map fun p => if p.1 = k then (k, v) else p)
        = if m.any (fun p => decide (p.1 = k)) then some v else none := by
  intro m
  induction m with
  | nil => simp [List.lookup]
  | cons p t ih =>
    rw [List.map_cons, List.any_cons]
    by_cases h : p.1 = k
    · rw [if_pos h]
      simp [List.lookup, h]
    · have h' : (k == p.1) = false := beq_eq_false_iff_ne.mpr (Ne.symm h)
      have hd : (decide (p.1 = k)) = false := decide_eq_false h
      rw [if_neg h, hd, Bool.false_or]
      simp [List.lookup, h', ih]

theorem lookup_append_single (k : String) (v : Option α) :
    ∀ m : List (String × Option α), m.any (fun p => decide (p.1 = k)) = false →
      List.lookup k (m ++ [(k, v)]) = some v := by
  intro m
  induction m with
  | nil => simp [List.lookup]
  | cons p t ih =>
    intro h
    rw [List.any_cons, Bool.or_eq_false_iff] at h
    have hne : p.1 ≠ k := by simpa using h.1
    have h' : (k == p.1) = false := beq_eq_false_iff_ne.mpr (Ne.symm hne)
    simp [List.cons_append, List.lookup, h', ih h.2]

theorem lookup_dictSet_self (m : List (String × Option α)) (k : String) (v : Option α) :
    List.lookup k (dictSet m k v) = some v := by
  unfold dictSet
  by_cases h : m.any (fun p => decide (p.1 = k)) = true
  · rw [if_pos h, lookup_map_replace, if_pos h]
  · rw [if_neg h, lookup_append_single k v m
      (by simp only [Bool.not_eq_true] at h; exact h)]

theorem lookup_map_replace_ne (k k' : String) (v : Option α) (hne : k' ≠ k) :
    ∀ m : List (String × Option α),
      List.lookup k' (m.map fun p => if p.1 = k then (k, v) else p)
        = List.lookup k' m := by
  intro m
  induction m with
  | nil => simp
  | cons p t ih =>
    rw [List.map_cons]
    by_cases h : p.1 = k
    · have h1 : (k' == k) = false := beq_eq_false_iff_ne.mpr hne
      have h2 : (k' == p.1) = false := beq_eq_false_iff_ne.mpr (h ▸ hne)
      rw [if_pos h]
      simp [List.lookup, h1, h2, ih]
    · rw [if_neg h]
      by_cases hkp : (k' == p.1) = true
      · simp [List.lookup, hkp]
      · simp only [Bool.not_eq_true] at hkp
        simp [List.lookup, hkp, ih]

theorem lookup_append_single_ne (k k' : String) (v : Option α) (hne : k' ≠ k) :
    ∀ m : List (String × Option α),
      List.lookup k' (m ++ [(k, v)]) = List.lookup k' m := by
  intro m
  induction m with
  | nil => simp [List.lookup, beq_eq_false_iff_ne.mpr hne]
  | cons p t ih =>
    by_cases hkp : (k' == p.1) = true
    · simp [List.cons_append, List.lookup, hkp]
    · simp only [Bool.not_eq_true] at hkp
      simp [List.cons_append, List.lookup, hkp, ih]

theorem lookup_dictSet_ne (m : List (String × Option α)) (k k' : String)
    (v : Option α) (hne : k' ≠ k) :
    List.lookup k' (dictSet m k v) = List.lookup k' m := by
  unfold dictSet
  by_cases h : m.any (fun p => decide (p.1 = k)) = true
  · rw [if_pos h, lookup_map_replace_ne k k' v hne]
  · rw [if_neg h, lookup_append_single_ne k k' v hne]

theorem mem_dictSet (m : List (String × Option α)) (k : String) (v : Option α)
    (x : String × Option α) (hx : x ∈ dictSet m k v) : x = (k, v) ∨ x ∈ m := by
  unfold dictSet at hx
  by_cases h : m.any (fun p => decide (p.1 = k)) = true
  · rw [if_pos h] at hx
    obtain ⟨p, hp, he⟩ := List.mem_map.mp hx
    by_cases hpk : p.1 = k
    · rw [if_pos hpk] at he
      exact Or.inl he.symm
    · rw [if_neg hpk] at he
      exact Or.inr (he ▸ hp)
  · rw [if_neg h] at hx
    rcases List.mem_append.mp hx with h' | h'
    · exact Or.inr h'
    · exact Or.inl (by simpa using h')

/-! ## C4 -/

theorem dispatchLoop_contract {α : Type} (calcFn : String → Except PyError (Option α)) :
    ∀ (inds : List PyVal) (acc : List (String × Option α)),
      (∀ x ∈ inds, x.isStr = true) →
      ∃ m, dispatchLoop calcFn inds acc = .ok m ∧
        (∀ x ∈ m, x.1 ∈ KNOWN_INDICATORS ∨ x ∈ acc) ∧
        (∀ s : String, PyVal.str s ∈ inds → str_upper s ∈ KNOWN_INDICATORS →
          List.lookup (str_upper s) m = some (exceptCollapse (calcFn (str_upper s)))) ∧
        (∀ k : String,
          (¬ ∃ s, PyVal.str s ∈ inds ∧ str_upper s = k ∧ k ∈ KNOWN_INDICATORS) →
          List.lookup k m = List.lookup k acc) := by
  intro inds
  induction inds with
  | nil =>
    intro acc _
    exact ⟨acc, rfl, fun x hx => Or.inr hx, by simp, fun k _ => rfl⟩
  | cons x rest ih =>
    intro acc hstr
    have hx := hstr x (List.mem_cons_self x rest)
    cases x with
    | nonstr => simp [PyVal.isStr] at hx
    | str s =>
      have hrest : ∀ y ∈ rest, y.isStr = true := fun y hy =>
        hstr y (List.mem_cons_of_mem _ hy)
      by_cases hk : str_upper s ∈ KNOWN_INDICATORS
      · have hstep : dispatchLoop calcFn (PyVal.str s :: rest) acc
            = dispatchLoop calcFn rest (dictSet acc (str_upper s)
                (exceptCollapse (calcFn (str_upper s)))) := by
          simp only [dispatchLoop, pyUpper]
          rw [if_pos hk]
          cases hc : calcFn (str_upper s) with
          | ok v => simp [exceptCollapse]
          | error e => simp [exceptCollapse]
        obtain ⟨m, hm, hdom, hknown, hother⟩ :=
          ih (dictSet acc (str_upper s) (exceptCollapse (calcFn (str_upper s)))) hrest
        refine ⟨m, by rw [hstep]; exact hm, ?_, ?_, ?_⟩
        · intro y hy
          rcases hdom y hy with h | h
          · exact Or.inl h
          · rcases mem_dictSet _ _ _ _ h with h' | h'
            · exact Or.inl (by rw [h']; exact hk)
            · exact Or.inr h'
        · intro s' hs' hk'
          rcases List.mem_cons.mp hs' with he | hs''
          · injection he with he'
            subst he'
            by_cases hrm : ∃ s'', PyVal.str s'' ∈ rest ∧
                str_upper s'' = str_upper s' ∧ str_upper s' ∈ KNOWN_INDICATORS
            · obtain ⟨s'', hmem'', hup'', _⟩ := hrm
              have := hknown s'' hmem'' (hup'' ▸ hk')
              rw [hup''] at this
              exact this
            · rw [hother (str_upper s') hrm, lookup_dictSet_self]
          · exact hknown s' hs'' hk'
        · intro k hnk
          have hknot : ¬ ∃ s', PyVal.str s' ∈ rest ∧ str_upper s' = k ∧
              k ∈ KNOWN_INDICATORS := by
            rintro ⟨s', h1, h2, h3⟩
            exact hnk ⟨s', List.mem_cons_of_mem _ h1, h2, h3⟩
          have hkne : k ≠ str_upper s := by
            intro he
            exact hnk ⟨s, List.mem_cons_self _ _, he.symm, he ▸ hk⟩
          rw [hother k hknot, lookup_dictSet_ne _ _ _ _ hkne]
      · have hstep : dispatchLoop calcFn (PyVal.str s :: rest) acc
            = dispatchLoop calcFn rest acc := by
          simp only [dispatchLoop, pyUpper]
          rw [if_neg hk]
        obtain ⟨m, hm, hdom, hknown, hother⟩ := ih acc hrest
        refine ⟨m, by rw [hstep]; exact hm, hdom, ?_, ?_⟩
        · intro s' hs' hk'
          rcases List.mem_cons.mp hs' with he | hs''
          · injection he with he'
            subst he'
            exact absurd hk' hk
          · exact hknown s' hs'' hk'
        · intro k hnk
          apply hother
          rintro ⟨s', h1, h2, h3⟩
          exact hnk ⟨s', List.mem_cons_of_mem _ h1, h2, h3⟩

theorem dispatchLoop_nil_contract {α : Type}
    (calcFn : String → Except PyError (Option α))
    (inds : List PyVal) (hstr : ∀ x ∈ inds, x.isStr = true) :
    ∃ m, dispatchLoop calcFn inds [] = .ok m ∧
      (∀ x ∈ m, x.1 ∈ KNOWN_INDICATORS) ∧
      (∀ s : String, PyVal.str s ∈ inds → str_upper s ∈ KNOWN_INDICATORS →
        List.lookup (str_upper s) m = some (exceptCollapse (calcFn (str_upper s)))) ∧
      (∀ k : String, k ∉ KNOWN_INDICATORS → List.lookup k m = none) := by
  obtain ⟨m, hm, hdom, hknown, hother⟩ := dispatchLoop_contract calcFn inds [] hstr
  refine ⟨m, hm, ?_, hknown, ?_⟩
  · intro x hx
    rcases hdom x hx with h | h
    · exact h
    · simp at h
  · intro k hkn
    rw [hother k (by rintro ⟨s, _, rfl, h3⟩; exact hkn h3)]
    rfl

/-- C4: for any calculator behaviour (including raising), the dispatch loop
over string indicator names never propagates a calculator error; the result
mapping holds exactly the recognised uppercased names that were requested —
each mapped to the calculator's value, or null if the calculator raised — and
unrecognised names are omitted entirely.  In particular, with a supported
period the whole call returns an `ok` mapping whose recognised keys hold the
corresponding calculator results. -/
theorem dispatcher_contract :
    (∀ {α : Type} (calcFn : String → Except PyError (Option α)) (inds : List PyVal),
      (∀ x ∈ inds, x.isStr = true) →
      ∃ m, dispatchLoop calcFn inds [] = .ok m ∧
        (∀ x ∈ m, x.1 ∈ KNOWN_INDICATORS) ∧
        (∀ s : String, PyVal.str s ∈ inds → str_upper s ∈ KNOWN_INDICATORS →
          List.lookup (str_upper s) m = some (exceptCollapse (calcFn (str_upper s)))) ∧
        (∀ k : String, k ∉ KNOWN_INDICATORS → List.lookup k m = none)) ∧
    (∀ (db : Store) (symbol p : String) (inds : List PyVal) (now i : Int),
      TIMEFRAME_MS p = some i → (∀ x ∈ inds, x.isStr = true) →
      ∃ m, get_flow_indicators_for_prompt db symbol p inds now = .ok m ∧
        (∀ x ∈ m, x.1 ∈ KNOWN_INDICATORS) ∧
        (∀ s : String, PyVal.str s ∈ inds → str_upper s ∈ KNOWN_INDICATORS →
          List.lookup (str_upper s) m
            = some (realCalcVal db symbol p i now (str_upper s))) ∧
        (∀ k : String, k ∉ KNOWN_INDICATORS → List.lookup k m = none)) := by
  constructor
  · intro α calcFn inds hstr
    exact dispatchLoop_nil_contract calcFn inds hstr
  · intro db symbol p inds now i hp hstr
    obtain ⟨m, hm, hdom, hknown, hother⟩ :=
      dispatchLoop_nil_contract (realCalc db symbol p i now) inds hstr
    refine ⟨m, ?_, hdom, fun s hs hk => hknown s hs hk, hother⟩
    unfold get_flow_indicators_for_prompt
    rw [hp]
    exact hm

/-- Witness for C4: a calculator that raises on CVD, with a recognised and an
unrecognised request, plus the real entry point on the empty store. -/
theorem dispatcher_contract_witness :
    (∀ x ∈ ([PyVal.str "cvd", PyVal.str "BOGUS"] : List PyVal), x.isStr = true) ∧
    (∃ m, dispatchLoop calcW [PyVal.str "cvd", PyVal.str "BOGUS"] [] = .ok m ∧
      (∀ x ∈ m, x.1 ∈ KNOWN_INDICATORS) ∧
      (∀ s : String, PyVal.str s ∈ ([PyVal.str "cvd", PyVal.str "BOGUS"] : List PyVal) →
        str_upper s ∈ KNOWN_INDICATORS →
        List.lookup (str_upper s) m = some (exceptCollapse (calcW (str_upper s)))) ∧
      (∀ k : String, k ∉ KNOWN_INDICATORS → List.lookup k m = none)) ∧
    (∃ m, get_flow_indicators_for_prompt emptyStore "BTC" "1m"
        [PyVal.str "cvd", PyVal.str "BOGUS"] 0 = .ok m ∧
      (∀ x ∈ m, x.1 ∈ KNOWN_INDICATORS) ∧
      (∀ s : String, PyVal.str s ∈ ([PyVal.str "cvd", PyVal.str "BOGUS"] : List PyVal) →
        str_upper s ∈ KNOWN_INDICATORS →
        List.lookup (str_upper s) m
          = some (realCalcVal emptyStore "BTC" "1m" 60000 0 (str_upper s))) ∧
      (∀ k : String, k ∉ KNOWN_INDICATORS → List.lookup k m = none)) :=
  ⟨by decide,
   dispatcher_contract.1 calcW [PyVal.str "cvd", PyVal.str "BOGUS"] (by decide),
   dispatcher_contract.2 emptyStore "BTC" "1m" [PyVal.str "cvd", PyVal.str "BOGUS"]
     0 60000 rfl (by decide)⟩

/-! ## C9 -/

/-- C9: a period label outside the 8 enumerated ones makes the whole call
return the empty mapping without raising, for any store, symbol and indicator
list; and the interval lookup is the fixed millisecond table. -/
theorem unsupported_period_empty :
    (∀ p : String,
      p ∉ (["1m", "3m", "5m", "15m", "30m", "1h", "2h", "4h"] : List String) →
      ∀ (db : Store) (symbol : String) (inds : List PyVal) (now : Int),
        get_flow_indicators_for_prompt db symbol p inds now = .ok []) ∧
    (TIMEFRAME_MS "1m" = some 60000 ∧ TIMEFRAME_MS "3m" = some 180000 ∧
     TIMEFRAME_MS "5m" = some 300000 ∧ TIMEFRAME_MS "15m" = some 900000 ∧
     TIMEFRAME_MS "30m" = some 1800000 ∧ TIMEFRAME_MS "1h" = some 3600000 ∧
     TIMEFRAME_MS "2h" = some 7200000 ∧ TIMEFRAME_MS "4h" = some 14400000) := by
  constructor
  · intro p hp db symbol inds now
    unfold get_flow_indicators_for_prompt
    rw [timeframe_none_of_not_mem hp]
  · exact ⟨rfl, rfl, rfl, rfl, rfl, rfl, rfl, rfl⟩

/-- Witness for C9 at the unsupported period `"7m"`, with a non-string in the
indicator list. -/
theorem unsupported_period_empty_witness :
    "7m" ∉ (["1m", "3m", "5m", "15m", "30m", "1h", "2h", "4h"] : List String) ∧
    get_flow_indicators_for_prompt emptyStore "BTC" "7m"
      [PyVal.str "CVD", PyVal.nonstr] 0 = .ok [] :=
  ⟨by decide, unsupported_period_empty.1 "7m" (by decide) emptyStore "BTC" _ 0⟩

/-! ## C10 -/

theorem dispatchLoop_nonstr_error {α : Type} (f : String → Option α) :
    ∀ (inds : List PyVal) (acc : List (String × Option α)),
      PyVal.nonstr ∈ inds →
      dispatchLoop (fun n => .ok (f n)) inds acc = .error .attributeError := by
  intro inds
  induction inds with
  | nil => intro acc h; simp at h
  | cons x rest ih =>
    intro acc hmem
    cases x with
    | nonstr => rfl
    | str s =>
      have hmem' : PyVal.nonstr ∈ rest := by
        rcases List.mem_cons.mp hmem with h | h
        · exact absurd h (by simp)
        · exact h
      simp only [dispatchLoop, pyUpper]
      by_cases hk : str_upper s ∈ KNOWN_INDICATORS
      · rw [if_pos hk]
        exact ih _ hmem'
      · rw [if_neg hk]
        exact ih _ hmem'

/-- C10: with a supported period, a non-string element in the indicator list
makes the call raise (`AttributeError` from `.upper()`, outside the
per-indicator `try`), so no mapping at all is returned — unlike a calculator
error, which is caught and stored as null (see the dispatcher contract). -/
theorem nonstring_indicator_raises (db : Store) (symbol p : String)
    (inds : List PyVal) (now i : Int) (hp : TIMEFRAME_MS p = some i)
    (hn : PyVal.nonstr ∈ inds) :
    get_flow_indicators_for_prompt db symbol p inds now
      = .error .attributeError := by
  unfold get_flow_indicators_for_prompt
  rw [hp]
  exact dispatchLoop_nonstr_error (realCalcVal db symbol p i now) inds [] hn

/-- Witness for C10: a non-string after a valid indicator, period `"1m"`. -/
theorem nonstring_indicator_raises_witness :
    TIMEFRAME_MS "1m" = some 60000 ∧
    get_flow_indicators_for_prompt emptyStore "BTC" "1m"
      [PyVal.str "CVD", PyVal.nonstr] 0 = .error .attributeError :=
  ⟨rfl, nonstring_indicator_raises emptyStore "BTC" "1m"
    [PyVal.str "CVD", PyVal.nonstr] 0 60000 rfl (by decide)⟩

end MarketFlow
